import Mathlib

/-!
Shallow embedding of the Kepler-orbit visualization scripts
(`simulator_with_graphs.py` and `animated_orbit.py`) over the reals,
together with theorems settling the specification claims about the
orbit-mathematics core (validation, trajectory sampling, energy
decomposition, turning points, velocity vectors).
-/

namespace Kepler

noncomputable section

/-- Reduced mass `mu = m1*m2/(m1+m2)` (line 22 of `simulator_with_graphs.py`,
line 13 of `animated_orbit.py`). -/
def mu (m1 m2 : ℝ) : ℝ := m1 * m2 / (m1 + m2)

/-- The eccentricity argument `arg = 1 + 2*E*Lz^2/(mu*alpha^2)` (line 25 of
`simulator_with_graphs.py`, line 14 of `animated_orbit.py`). -/
def eccArg (m1 m2 Lz alpha E : ℝ) : ℝ :=
  1 + (2 * E * Lz ^ 2) / (mu m1 m2 * alpha ^ 2)

/-- Semi-latus rectum `p = Lz^2/(mu*alpha)` (line 32 of
`simulator_with_graphs.py`, line 19 of `animated_orbit.py`). -/
def semiLatus (m1 m2 Lz alpha : ℝ) : ℝ := Lz ^ 2 / (mu m1 m2 * alpha)

/-- The three conic-orbit classes reported by the simulator. -/
inductive OrbitClass where
  | Ellipse
  | Parabola
  | Hyperbola
deriving DecidableEq

/-- Orbit classification from eccentricity (lines 80-85 of
`simulator_with_graphs.py`): `Ellipse` when `epsilon < 1`, else `Parabola`
when `np.isclose(epsilon, 1.0, atol=1e-2)` holds (with numpy's default
relative tolerance `rtol = 1e-5`, `np.isclose(a, b)` is
`|a - b| <= atol + rtol*|b|`), else `Hyperbola`. -/
def orbit_type (epsilon : ℝ) : OrbitClass :=
  if epsilon < 1 then OrbitClass.Ellipse
  else if |epsilon - 1| ≤ 1 / 100 + 1 / 100000 * |(1 : ℝ)| then OrbitClass.Parabola
  else OrbitClass.Hyperbola

/-- Conic-section geometry derived from validated parameters. -/
structure OrbitGeometry where
  epsilon : ℝ
  p : ℝ
  orbit_class : OrbitClass

/-- Parameter validation (lines 25-32 of `simulator_with_graphs.py`,
lines 14-20 of `animated_orbit.py`): when `arg < 0` the configuration is
unphysical and nothing is produced (`none`); otherwise the geometry with
`epsilon = sqrt arg` and `p = Lz^2/(mu*alpha)` is built. -/
def validate (m1 m2 Lz alpha E : ℝ) : Option OrbitGeometry :=
  if eccArg m1 m2 Lz alpha E < 0 then none
  else some
    { epsilon := Real.sqrt (eccArg m1 m2 Lz alpha E)
      p := semiLatus m1 m2 Lz alpha
      orbit_class := orbit_type (Real.sqrt (eccArg m1 m2 Lz alpha E)) }

/-- Number of trajectory samples (`np.linspace(0, 2*np.pi, 1000)`). -/
def n_samples : ℕ := 1000

/-- The sampled angles: `np.linspace(0, 2*np.pi, 1000)` produces, for
`k = 0, ..., 999`, the angle `2*pi*k/999` (numpy's `linspace` includes the
endpoint by default). Line 24 of `simulator_with_graphs.py`, line 22 of
`animated_orbit.py`. -/
def theta_full (k : ℕ) : ℝ := 2 * Real.pi * k / 999

/-- The orbit-equation denominator `1 + epsilon*cos(theta)` (line 39 of
`simulator_with_graphs.py`, line 23 of `animated_orbit.py`). -/
def denom (epsilon theta : ℝ) : ℝ := 1 + epsilon * Real.cos theta

/-- The pre-filter on angles in `kepler_combined` (lines 33-37 of
`simulator_with_graphs.py`): when `epsilon >= 1` only angles with
`|denom| > 1e-3` are kept; when `epsilon < 1` every angle is kept. -/
def keptAngle (epsilon theta : ℝ) : Prop :=
  if 1 ≤ epsilon then 1 / 1000 < |denom epsilon theta| else True

/-- The guarded radius computation
`np.where(np.abs(denom) > 1e-5, p / denom, np.nan)` (line 40 of
`simulator_with_graphs.py`); the NaN fallback is modelled as `none`. -/
def radius (p epsilon theta : ℝ) : Option ℝ :=
  if 1 / 100000 < |denom epsilon theta| then some (p / denom epsilon theta) else none

/-- Derivative of radius with respect to angle,
`dr_dtheta = p*epsilon*sin(theta)/(1+epsilon*cos(theta))^2` (line 44 of
`simulator_with_graphs.py`). -/
def dr_dtheta (p epsilon theta : ℝ) : ℝ :=
  p * epsilon * Real.sin theta / (1 + epsilon * Real.cos theta) ^ 2

/-- Angular rate `theta_dot = Lz/(mu*r^2)` (line 45 of
`simulator_with_graphs.py`). -/
def theta_dot (Lz muv r : ℝ) : ℝ := Lz / (muv * r ^ 2)

/-- Radial rate `r_dot = dr_dtheta * theta_dot` (line 46 of
`simulator_with_graphs.py`). -/
def r_dot (p epsilon theta Lz muv r : ℝ) : ℝ :=
  dr_dtheta p epsilon theta * theta_dot Lz muv r

/-- Kinetic energy `T = 0.5*mu*(r_dot^2 + r^2*theta_dot^2)` (line 47 of
`simulator_with_graphs.py`). -/
def kinetic (muv rdot r thetadot : ℝ) : ℝ :=
  1 / 2 * muv * (rdot ^ 2 + r ^ 2 * thetadot ^ 2)

/-- Potential energy `U = -alpha/r` (line 48 of
`simulator_with_graphs.py`). -/
def potential (alpha r : ℝ) : ℝ := -alpha / r

/-- Speed magnitude in the animated script (lines 52-55 of
`animated_orbit.py`): `0` when `r == 0`, else `sqrt(2*(E + alpha/r)/mu)`. -/
def v_mag (E alpha muv r : ℝ) : ℝ :=
  if r = 0 then 0 else Real.sqrt (2 * (E + alpha / r) / muv)

/-- The velocity-arrow computation of `update` (lines 46-70 of
`animated_orbit.py`): if the tangent between adjacent samples has zero
length the arrow is the zero vector; otherwise the unit tangent scaled by
the speed magnitude. -/
def instantaneous_velocity_vector (E alpha muv r dx dy : ℝ) : ℝ × ℝ :=
  if Real.sqrt (dx ^ 2 + dy ^ 2) = 0 then (0, 0)
  else
    (v_mag E alpha muv r * dx / Real.sqrt (dx ^ 2 + dy ^ 2),
     v_mag E alpha muv r * dy / Real.sqrt (dx ^ 2 + dy ^ 2))

/-- Outcome of one scipy `fsolve` call as observed by the wrapper: either a
returned root together with the convergence flag `ier`, or a raised
exception. -/
inductive FsolveOutcome where
  | ok (root : ℝ) (ier : ℤ)
  | raised

/-- The `safe_fsolve` wrapper (lines 10-18 of `simulator_with_graphs.py`),
parametric in the external solver: returns the root when `ier == 1`,
`None` on non-convergence, and `None` when the call raises. -/
def safe_fsolve (fsolve : (ℝ → ℝ) → ℝ → FsolveOutcome)
    (func : ℝ → ℝ) (x0 : ℝ) : Option ℝ :=
  match fsolve func x0 with
  | FsolveOutcome.ok root ier => if ier = 1 then some root else none
  | FsolveOutcome.raised => none

/-- The effective-potential equation `veff_eq` (lines 55-56 of
`simulator_with_graphs.py`): `f(r) = Lz^2/(2*mu*r^2) - alpha/r - E`. -/
def veff_eq (muv Lz alpha E rval : ℝ) : ℝ :=
  Lz ^ 2 / (2 * muv * rval ^ 2) - alpha / rval - E

/-- The two turning-point searches (lines 58-59 of
`simulator_with_graphs.py`): `rmin` from the guess `0.5` and `rmax` from
the guess `5.0`, each through `safe_fsolve` on `veff_eq`. -/
def turning_points (fsolve : (ℝ → ℝ) → ℝ → FsolveOutcome)
    (muv Lz alpha E : ℝ) : Option ℝ × Option ℝ :=
  (safe_fsolve fsolve (veff_eq muv Lz alpha E) (1 / 2),
   safe_fsolve fsolve (veff_eq muv Lz alpha E) 5)

/-- A root search failed: the solver raised, or it returned with a
convergence flag other than `1`. -/
def searchFailed (out : FsolveOutcome) : Prop :=
  out = FsolveOutcome.raised ∨
  ∃ root ier, out = FsolveOutcome.ok root ier ∧ ier ≠ 1

end

/-- Claim C9 counterexample: `np.linspace(0, 2*np.pi, 1000)` includes its
endpoint, so `2*pi` IS among the generated angles (it is sample number 999),
contradicting the claim that the angles lie in the half-open interval
`[0, 2*pi)`. -/
theorem theta_full_contains_two_pi : theta_full 999 = 2 * Real.pi := by
  rw [theta_full]
  norm_num

/-- Claim C9 (amended): the sampler generates `n_samples = 1000` angles with
constant step `2*pi/999`, starting at `0` and ending at `2*pi` inclusive;
every generated angle lies in the closed interval `[0, 2*pi]`. -/
theorem theta_full_evenly_spaced (k : ℕ) (hk : k + 1 < n_samples) :
    theta_full (k + 1) - theta_full k = 2 * Real.pi / 999 ∧
    theta_full 0 = 0 ∧
    theta_full (n_samples - 1) = 2 * Real.pi ∧
    0 ≤ theta_full k ∧ theta_full k ≤ 2 * Real.pi := by
  have hπ := Real.pi_pos
  have hk999 : (k : ℝ) ≤ 999 := by
    have : k ≤ 999 := by
      have := hk
      simp only [n_samples] at this
      omega
    exact_mod_cast this
  refine ⟨?_, ?_, ?_, ?_, ?_⟩
  · rw [theta_full, theta_full]
    push_cast
    ring
  · rw [theta_full]; norm_num
  · show theta_full 999 = 2 * Real.pi
    rw [theta_full]; norm_num
  · rw [theta_full]
    positivity
  · rw [theta_full]
    rw [div_le_iff (by norm_num : (0:ℝ) < 999)]
    nlinarith

/-- Claim C9 witness: the step between the first two generated angles is
`2*pi/999`, the first angle is `0`, the last is `2*pi`. -/
theorem theta_full_evenly_spaced_witness :
    theta_full 1 - theta_full 0 = 2 * Real.pi / 999 ∧
    theta_full 0 = 0 ∧
    theta_full (n_samples - 1) = 2 * Real.pi ∧
    0 ≤ theta_full 0 ∧ theta_full 0 ≤ 2 * Real.pi :=
  theta_full_evenly_spaced 0 (by norm_num [n_samples])

/-- Claim C3 counterexample: at eccentricity `0.99` the classifier returns
`Ellipse`, not `Parabola` as the claim states, because the `epsilon < 1`
test precedes the `isclose` tolerance test. -/
theorem orbit_type_at_099 :
    orbit_type (99 / 100) = OrbitClass.Ellipse ∧
    OrbitClass.Ellipse ≠ OrbitClass.Parabola := by
  constructor
  · rw [orbit_type, if_pos (by norm_num)]
  · decide

/-- Claim C3 (amended): eccentricity exactly `1.0` classifies as `Parabola`;
`0.99` classifies as `Ellipse` (any eccentricity below 1 takes the
`Ellipse` branch before the tolerance test); `0.5` classifies as `Ellipse`;
`1.5` classifies as `Hyperbola`. -/
theorem orbit_type_boundary :
    orbit_type 1 = OrbitClass.Parabola ∧
    orbit_type (99 / 100) = OrbitClass.Ellipse ∧
    orbit_type (1 / 2) = OrbitClass.Ellipse ∧
    orbit_type (3 / 2) = OrbitClass.Hyperbola := by
  refine ⟨?_, ?_, ?_, ?_⟩
  · rw [orbit_type, if_neg (by norm_num), if_pos (by norm_num)]
  · rw [orbit_type, if_pos (by norm_num)]
  · rw [orbit_type, if_pos (by norm_num)]
  · rw [orbit_type, if_neg (by norm_num), if_neg ?_]
    rw [abs_of_nonneg (by norm_num : (0:ℝ) ≤ 3/2 - 1)]
    norm_num

/-- Claim C1: for positive masses and coupling, validation returns the
unphysical marker (`none`) exactly when `arg < 0`; otherwise it returns the
geometry with `epsilon = sqrt arg >= 0` and `p = Lz^2/(mu*alpha)`. -/
theorem validate_spec (m1 m2 Lz alpha E : ℝ)
    (hm1 : 0 < m1) (hm2 : 0 < m2) (halpha : 0 < alpha) :
    (eccArg m1 m2 Lz alpha E < 0 → validate m1 m2 Lz alpha E = none) ∧
    (0 ≤ eccArg m1 m2 Lz alpha E →
      validate m1 m2 Lz alpha E = some
        { epsilon := Real.sqrt (eccArg m1 m2 Lz alpha E)
          p := semiLatus m1 m2 Lz alpha
          orbit_class := orbit_type (Real.sqrt (eccArg m1 m2 Lz alpha E)) } ∧
      0 ≤ Real.sqrt (eccArg m1 m2 Lz alpha E)) := by
  constructor
  · intro hneg
    rw [validate, if_pos hneg]
  · intro hpos
    refine ⟨?_, Real.sqrt_nonneg _⟩
    rw [validate, if_neg (not_lt.mpr hpos)]

/-- Claim C1 witness: at `m1 = m2 = Lz = alpha = 1`, `E = -10` the argument
is `1 - 40 = -39 < 0` and validation reports the unphysical configuration. -/
theorem validate_spec_witness : validate 1 1 1 1 (-10) = none :=
  (validate_spec 1 1 1 1 (-10) (by norm_num) (by norm_num) (by norm_num)).1
    (by rw [eccArg, mu]; norm_num)

/-- Claim C8: on the closed-orbit branch (`0 <= epsilon < 1`) every angle
passes the filter, and the denominator is bounded below by `1 - epsilon`,
which is positive. -/
theorem closed_orbit_no_filter (epsilon theta : ℝ)
    (h0 : 0 ≤ epsilon) (h1 : epsilon < 1) :
    keptAngle epsilon theta ∧
    1 - epsilon ≤ denom epsilon theta ∧ 0 < denom epsilon theta := by
  have hcos := Real.neg_one_le_cos theta
  have hbound : 1 - epsilon ≤ denom epsilon theta := by
    rw [denom]
    nlinarith
  exact ⟨by rw [keptAngle, if_neg (not_le.mpr h1)]; trivial, hbound, by linarith⟩

/-- Claim C8 witness: at `epsilon = 1/2`, `theta = 0` the angle is kept and
the denominator is `3/2 >= 1/2 > 0`. -/
theorem closed_orbit_no_filter_witness :
    keptAngle (1 / 2) 0 ∧ 1 - 1 / 2 ≤ denom (1 / 2) 0 ∧ 0 < denom (1 / 2) 0 :=
  closed_orbit_no_filter (1 / 2) 0 (by norm_num) (by norm_num)

/-- Claim C10: on the open-orbit branch (`epsilon >= 1`) every angle that
survives the pre-filter has `|denom| > 1e-3 > 1e-5`, so the NaN fallback of
the guarded radius computation is unreachable and the retained radius is
exactly `p/denom`. -/
theorem kept_radius_exact (epsilon p theta : ℝ)
    (heps : 1 ≤ epsilon) (hkept : keptAngle epsilon theta) :
    1 / 1000 < |denom epsilon theta| ∧
    (1 : ℝ) / 100000 < 1 / 1000 ∧
    radius p epsilon theta = some (p / denom epsilon theta) := by
  rw [keptAngle, if_pos heps] at hkept
  refine ⟨hkept, by norm_num, ?_⟩
  rw [radius, if_pos (by linarith)]

/-- Claim C10 witness: at `epsilon = 3/2`, `theta = 0` the denominator is
`5/2`, the angle is kept, and the radius evaluates to `p/denom`. -/
theorem kept_radius_exact_witness :
    1 / 1000 < |denom (3 / 2) 0| ∧
    (1 : ℝ) / 100000 < 1 / 1000 ∧
    radius 1 (3 / 2) 0 = some (1 / denom (3 / 2) 0) :=
  kept_radius_exact (3 / 2) 1 0 (by norm_num)
    (by
      rw [keptAngle, if_pos (by norm_num), denom, Real.cos_zero]
      rw [abs_of_pos (by norm_num : (0:ℝ) < 1 + 3 / 2 * 1)]
      norm_num)

/-- Claim C4 counterexample: the pre-filter of `kepler_combined` does NOT
exclude samples with non-positive denominator. With `m1 = m2 = Lz = alpha = 2`
and `E = 5/8` the eccentricity is exactly `3/2`, and at the generated sample
angle `theta_full 499 = 998*pi/999` the denominator is negative while the
angle still passes the filter. -/
theorem filter_keeps_nonpositive_denom :
    Real.sqrt (eccArg 2 2 2 2 (5 / 8)) = 3 / 2 ∧
    keptAngle (3 / 2) (theta_full 499) ∧
    denom (3 / 2) (theta_full 499) < 0 := by
  have harg : eccArg 2 2 2 2 (5 / 8) = 9 / 4 := by
    rw [eccArg, mu]; norm_num
  have hsqrt : Real.sqrt (eccArg 2 2 2 2 (5 / 8)) = 3 / 2 := by
    rw [harg, show (9 / 4 : ℝ) = (3 / 2) ^ 2 by norm_num,
      Real.sqrt_sq (by norm_num : (0:ℝ) ≤ 3 / 2)]
  have hθ : theta_full 499 = Real.pi - Real.pi / 999 := by
    rw [theta_full]
    push_cast
    ring
  have hπ := Real.pi_pos
  have hπ4 := Real.pi_le_four
  have hcos_small : (99 / 100 : ℝ) ≤ Real.cos (Real.pi / 999) := by
    have hb := Real.one_sub_sq_div_two_le_cos (x := Real.pi / 999)
    have hx : Real.pi / 999 ≤ 4 / 999 := by linarith
    nlinarith [div_nonneg hπ.le (by norm_num : (0:ℝ) ≤ 999)]
  have hcos : Real.cos (theta_full 499) ≤ -(99 / 100) := by
    rw [hθ, Real.cos_pi_sub]
    linarith
  have hdneg : denom (3 / 2) (theta_full 499) < 0 := by
    rw [denom]
    nlinarith
  refine ⟨hsqrt, ?_, hdneg⟩
  rw [keptAngle, if_pos (by norm_num)]
  rw [abs_of_neg hdneg, denom]
  nlinarith

/-- Claim C4 (amended): on the open-orbit branch the pre-filter drops
exactly the angles with `|denom| <= 1e-3` before any radius is computed, and
every kept angle gets a real (non-NaN) radius equal to `p/denom`; samples
with negative denominator beyond that band are retained, not excluded. -/
theorem open_orbit_filter (epsilon p theta : ℝ) (heps : 1 ≤ epsilon) :
    (|denom epsilon theta| ≤ 1 / 1000 → ¬ keptAngle epsilon theta) ∧
    (keptAngle epsilon theta →
      radius p epsilon theta = some (p / denom epsilon theta)) := by
  constructor
  · intro hsmall hkept
    rw [keptAngle, if_pos heps] at hkept
    linarith
  · intro hkept
    rw [keptAngle, if_pos heps] at hkept
    rw [radius, if_pos (by linarith)]

/-- Claim C4 witness: at `epsilon = 3/2`, `theta = 0` (a kept angle) the
radius is real and equals `p/denom`. -/
theorem open_orbit_filter_witness :
    radius 1 (3 / 2) 0 = some (1 / denom (3 / 2) 0) :=
  (open_orbit_filter (3 / 2) 1 0 (by norm_num)).2
    (by
      rw [keptAngle, if_pos (by norm_num), denom, Real.cos_zero]
      rw [abs_of_pos (by norm_num : (0:ℝ) < 1 + 3 / 2 * 1)]
      norm_num)

/-- Claim C5: the velocity-arrow computation is total on its documented edge
cases: the speed is clamped to `0` when `r = 0`; a zero-length tangent
(coinciding adjacent samples) yields the zero vector instead of a division
by zero; otherwise the result is the unit tangent scaled by the speed
`sqrt(2*(E + alpha/r)/mu)`. -/
theorem velocity_vector_total (E alpha muv r dx dy : ℝ) :
    (r = 0 → v_mag E alpha muv r = 0) ∧
    (dx = 0 ∧ dy = 0 → instantaneous_velocity_vector E alpha muv r dx dy = (0, 0)) ∧
    (¬(dx = 0 ∧ dy = 0) →
      instantaneous_velocity_vector E alpha muv r dx dy =
        (v_mag E alpha muv r * dx / Real.sqrt (dx ^ 2 + dy ^ 2),
         v_mag E alpha muv r * dy / Real.sqrt (dx ^ 2 + dy ^ 2))) ∧
    (r ≠ 0 → v_mag E alpha muv r = Real.sqrt (2 * (E + alpha / r) / muv)) := by
  refine ⟨?_, ?_, ?_, ?_⟩
  · intro h
    rw [v_mag, if_pos h]
  · rintro ⟨h1, h2⟩
    subst h1; subst h2
    rw [instantaneous_velocity_vector, if_pos (by norm_num)]
  · intro h
    have hpos : 0 < dx ^ 2 + dy ^ 2 := by
      rcases not_and_or.mp h with h' | h'
      · positivity
      · positivity
    have hne : Real.sqrt (dx ^ 2 + dy ^ 2) ≠ 0 :=
      ne_of_gt (Real.sqrt_pos.mpr hpos)
    rw [instantaneous_velocity_vector, if_neg hne]
  · intro h
    rw [v_mag, if_neg h]

/-- Claim C5 witness: with coinciding adjacent samples (`dx = dy = 0`) the
arrow is the zero vector. -/
theorem velocity_vector_total_witness :
    instantaneous_velocity_vector 1 1 1 1 0 0 = (0, 0) :=
  (velocity_vector_total 1 1 1 1 0 0).2.1 ⟨rfl, rfl⟩

/-- A failed root search makes its own `safe_fsolve` call return `none`. -/
theorem safe_fsolve_of_failed (fsolve : (ℝ → ℝ) → ℝ → FsolveOutcome)
    (func : ℝ → ℝ) (x0 : ℝ) (h : searchFailed (fsolve func x0)) :
    safe_fsolve fsolve func x0 = none := by
  rcases h with h | ⟨root, ier, h, hne⟩
  · unfold safe_fsolve
    rw [h]
  · unfold safe_fsolve
    rw [h]
    simp [hne]

/-- Claim C6: each of the two turning-point searches independently reports
failure: a raising or non-convergent search near one guess yields `none`
for that bound while the other bound's result is untouched (it remains
whatever its own `safe_fsolve` call produces). -/
theorem turning_points_failure (fsolve : (ℝ → ℝ) → ℝ → FsolveOutcome)
    (muv Lz alpha E : ℝ) :
    (searchFailed (fsolve (veff_eq muv Lz alpha E) (1 / 2)) →
      (turning_points fsolve muv Lz alpha E).1 = none ∧
      (turning_points fsolve muv Lz alpha E).2 =
        safe_fsolve fsolve (veff_eq muv Lz alpha E) 5) ∧
    (searchFailed (fsolve (veff_eq muv Lz alpha E) 5) →
      (turning_points fsolve muv Lz alpha E).2 = none ∧
      (turning_points fsolve muv Lz alpha E).1 =
        safe_fsolve fsolve (veff_eq muv Lz alpha E) (1 / 2)) := by
  constructor
  · intro h
    exact ⟨safe_fsolve_of_failed _ _ _ h, rfl⟩
  · intro h
    exact ⟨safe_fsolve_of_failed _ _ _ h, rfl⟩

/-- Claim C6 witness: with a solver that always raises, the first bound is
reported absent and the second bound still equals its own search result. -/
theorem turning_points_failure_witness :
    (turning_points (fun _ _ => FsolveOutcome.raised) 1 1 1 1).1 = none ∧
    (turning_points (fun _ _ => FsolveOutcome.raised) 1 1 1 1).2 =
      safe_fsolve (fun _ _ => FsolveOutcome.raised) (veff_eq 1 1 1 1) 5 :=
  (turning_points_failure (fun _ _ => FsolveOutcome.raised) 1 1 1 1).1
    (Or.inl rfl)

/-- Claim C7 counterexample: at `m1=1, m2=6, Lz=2, alpha=2, E=-0.2` the
argument is `8/15 = 0.533...`, more than `0.2` below the claimed `0.767`,
and the eccentricity `sqrt(8/15) < 3/4` is more than `0.1` below the
claimed `0.876`. -/
theorem example_values_off :
    eccArg 1 6 2 2 (-(1 / 5)) = 8 / 15 ∧
    (767 / 1000 : ℝ) - 8 / 15 > 1 / 5 ∧
    Real.sqrt (eccArg 1 6 2 2 (-(1 / 5))) < 3 / 4 ∧
    (876 / 1000 : ℝ) - 3 / 4 > 1 / 10 := by
  have harg : eccArg 1 6 2 2 (-(1 / 5)) = 8 / 15 := by
    rw [eccArg, mu]; norm_num
  refine ⟨harg, by norm_num, ?_, by norm_num⟩
  rw [harg, Real.sqrt_lt' (by norm_num : (0:ℝ) < 3 / 4)]
  norm_num

/-- Claim C7 (amended): at `m1=1, m2=6, Lz=2, alpha=2, E=-0.2` the derived
quantities are `mu = 6/7 ≈ 0.857`, `arg = 8/15 ≈ 0.533 > 0`,
`epsilon = sqrt(8/15) ≈ 0.730` (classified Ellipse), and `p = 7/3 ≈ 2.333`. -/
theorem example_orbit_values :
    mu 1 6 = 6 / 7 ∧
    eccArg 1 6 2 2 (-(1 / 5)) = 8 / 15 ∧
    (0 : ℝ) < 8 / 15 ∧
    semiLatus 1 6 2 2 = 7 / 3 ∧
    orbit_type (Real.sqrt (eccArg 1 6 2 2 (-(1 / 5)))) = OrbitClass.Ellipse ∧
    (73 / 100 : ℝ) < Real.sqrt (eccArg 1 6 2 2 (-(1 / 5))) ∧
    Real.sqrt (eccArg 1 6 2 2 (-(1 / 5))) < 74 / 100 := by
  have harg : eccArg 1 6 2 2 (-(1 / 5)) = 8 / 15 := by
    rw [eccArg, mu]; norm_num
  have hlt : Real.sqrt (eccArg 1 6 2 2 (-(1 / 5))) < 74 / 100 := by
    rw [harg, Real.sqrt_lt' (by norm_num : (0:ℝ) < 74 / 100)]
    norm_num
  refine ⟨by rw [mu]; norm_num, harg, by norm_num, by rw [semiLatus, mu]; norm_num,
    ?_, ?_, hlt⟩
  · rw [orbit_type, if_pos (by linarith)]
  · rw [harg, show (73 / 100 : ℝ) = Real.sqrt ((73 / 100) ^ 2) from
      (Real.sqrt_sq (by norm_num)).symm]
    apply Real.sqrt_lt_sqrt (by positivity)
    norm_num

/-- Claim C2 counterexample: at `m1=1, m2=6, Lz=0, alpha=2, E=-1/5` the
configuration passes validation (`arg = 1`, `epsilon = 1`, `p = 0`), the
sample at angle `0` is retained with radius `r = 0/2 = 0`, yet the derived
energies do not round-trip to the input energy: the deviation is exactly
`1/5`, not below `1e-6` (in the floating-point program the same sample has
NaN kinetic and `-inf` potential energy, failing the check as well). -/
theorem energy_roundtrip_false_at_Lz_zero :
    Real.sqrt (eccArg 1 6 0 2 (-(1 / 5))) = 1 ∧
    radius (semiLatus 1 6 0 2) (Real.sqrt (eccArg 1 6 0 2 (-(1 / 5)))) 0 =
      some 0 ∧
    ¬ (|kinetic (mu 1 6)
          (r_dot (semiLatus 1 6 0 2) (Real.sqrt (eccArg 1 6 0 2 (-(1 / 5)))) 0
            0 (mu 1 6) 0)
          0 (theta_dot 0 (mu 1 6) 0) +
        potential 2 0 - -(1 / 5)| < 1 / 1000000) := by
  have harg : eccArg 1 6 0 2 (-(1 / 5)) = 1 := by
    rw [eccArg, mu]; norm_num
  have hsq : Real.sqrt (eccArg 1 6 0 2 (-(1 / 5))) = 1 := by
    rw [harg, Real.sqrt_one]
  have hp : semiLatus 1 6 0 2 = 0 := by
    rw [semiLatus]; norm_num
  refine ⟨hsq, ?_, ?_⟩
  · rw [hp, hsq, radius, denom, Real.cos_zero]
    have hcond : 1 / 100000 < |(1 : ℝ) + 1 * 1| := by
      rw [abs_of_pos (by norm_num : (0:ℝ) < 1 + 1 * 1)]
      norm_num
    rw [if_pos hcond]
    norm_num
  · rw [kinetic, r_dot, dr_dtheta, theta_dot, potential, hp]
    have hexp : (1 : ℝ) / 2 * mu 1 6 *
          ((0 * Real.sqrt (eccArg 1 6 0 2 (-(1 / 5))) * Real.sin 0 /
              (1 + Real.sqrt (eccArg 1 6 0 2 (-(1 / 5))) * Real.cos 0) ^ 2 *
              (0 / (mu 1 6 * 0 ^ 2))) ^ 2 +
            0 ^ 2 * (0 / (mu 1 6 * 0 ^ 2)) ^ 2) +
          -2 / 0 - -(1 / 5) = 1 / 5 := by
      norm_num
    rw [hexp, abs_of_pos (by norm_num : (0:ℝ) < 1 / 5)]
    norm_num

/-- Claim C2 (amended): for every retained trajectory sample (one whose
guarded radius computation produced a real value `r = p/denom`) of a
configuration with nonzero angular momentum `Lz`, the derived kinetic and
potential energies round-trip to the input energy: `|T + U - E| < 1e-6`
(over the reals the sum is exactly `E`). At `Lz = 0` the retained sample
has `r = 0` and the check fails. -/
theorem energy_roundtrip (m1 m2 Lz alpha E theta epsilon p r : ℝ)
    (hm1 : 0 < m1) (hm2 : 0 < m2) (halpha : 0 < alpha) (hLz : Lz ≠ 0)
    (harg : 0 ≤ eccArg m1 m2 Lz alpha E)
    (heps : epsilon = Real.sqrt (eccArg m1 m2 Lz alpha E))
    (hp : p = semiLatus m1 m2 Lz alpha)
    (hrad : radius p epsilon theta = some r) :
    |kinetic (mu m1 m2) (r_dot p epsilon theta Lz (mu m1 m2) r) r
        (theta_dot Lz (mu m1 m2) r) + potential alpha r - E| < 1 / 1000000 := by
  have hμpos : 0 < mu m1 m2 := by
    rw [mu]
    exact div_pos (mul_pos hm1 hm2) (add_pos hm1 hm2)
  have hμne : mu m1 m2 ≠ 0 := ne_of_gt hμpos
  have hε2 : epsilon ^ 2 = 1 + 2 * E * Lz ^ 2 / (mu m1 m2 * alpha ^ 2) := by
    rw [heps, Real.sq_sqrt harg, eccArg]
  rw [radius] at hrad
  by_cases hcond : 1 / 100000 < |denom epsilon theta|
  · rw [if_pos hcond] at hrad
    have hr : r = p / denom epsilon theta := (Option.some_inj.mp hrad).symm
    have hdne : denom epsilon theta ≠ 0 := by
      intro h0
      rw [h0] at hcond
      norm_num at hcond
    have hpne : p ≠ 0 := by
      rw [hp, semiLatus]
      exact div_ne_zero (pow_ne_zero 2 hLz) (mul_ne_zero hμne (ne_of_gt halpha))
    have hrne : r ≠ 0 := hr ▸ div_ne_zero hpne hdne
    rw [denom] at hr hdne
    have hcs : Real.sin theta ^ 2 + Real.cos theta ^ 2 = 1 :=
      Real.sin_sq_add_cos_sq theta
    have hmain : kinetic (mu m1 m2) (r_dot p epsilon theta Lz (mu m1 m2) r) r
        (theta_dot Lz (mu m1 m2) r) + potential alpha r = E := by
      rw [kinetic, r_dot, dr_dtheta, theta_dot, potential]
      have key : 1 / 2 * mu m1 m2 *
            ((p * epsilon * Real.sin theta / (1 + epsilon * Real.cos theta) ^ 2 *
                (Lz / (mu m1 m2 * r ^ 2))) ^ 2 +
              r ^ 2 * (Lz / (mu m1 m2 * r ^ 2)) ^ 2) +
            -alpha / r =
          mu m1 m2 * alpha ^ 2 / (2 * Lz ^ 2) *
            (epsilon ^ 2 * Real.sin theta ^ 2 +
              (1 + epsilon * Real.cos theta) ^ 2 -
              2 * (1 + epsilon * Real.cos theta)) := by
        rw [hr, hp, semiLatus]
        field_simp
        ring
      have hss : epsilon ^ 2 * Real.sin theta ^ 2 +
            (1 + epsilon * Real.cos theta) ^ 2 -
            2 * (1 + epsilon * Real.cos theta) = epsilon ^ 2 - 1 := by
        linear_combination epsilon ^ 2 * hcs
      rw [key, hss, hε2]
      field_simp
      ring
    rw [hmain]
    norm_num
  · rw [if_neg hcond] at hrad
    exact absurd hrad (by simp)

/-- Claim C2 witness: at `m1=1, m2=6, Lz=2, alpha=2, E=-0.2` and sample
angle `0` the retained sample's energies round-trip within `1e-6`. -/
theorem energy_roundtrip_witness :
    |kinetic (mu 1 6)
        (r_dot (semiLatus 1 6 2 2) (Real.sqrt (eccArg 1 6 2 2 (-(1 / 5)))) 0 2
          (mu 1 6)
          (semiLatus 1 6 2 2 / denom (Real.sqrt (eccArg 1 6 2 2 (-(1 / 5)))) 0))
        (semiLatus 1 6 2 2 / denom (Real.sqrt (eccArg 1 6 2 2 (-(1 / 5)))) 0)
        (theta_dot 2 (mu 1 6)
          (semiLatus 1 6 2 2 / denom (Real.sqrt (eccArg 1 6 2 2 (-(1 / 5)))) 0)) +
      potential 2
        (semiLatus 1 6 2 2 / denom (Real.sqrt (eccArg 1 6 2 2 (-(1 / 5)))) 0) -
      -(1 / 5)| < 1 / 1000000 := by
  have hd : denom (Real.sqrt (eccArg 1 6 2 2 (-(1 / 5)))) 0 =
      1 + Real.sqrt (eccArg 1 6 2 2 (-(1 / 5))) := by
    rw [denom, Real.cos_zero, mul_one]
  have habs : 1 / 100000 < |denom (Real.sqrt (eccArg 1 6 2 2 (-(1 / 5)))) 0| := by
    rw [hd, abs_of_pos (by positivity)]
    have := Real.sqrt_nonneg (eccArg 1 6 2 2 (-(1 / 5)))
    linarith
  exact energy_roundtrip 1 6 2 2 (-(1 / 5)) 0
    (Real.sqrt (eccArg 1 6 2 2 (-(1 / 5)))) (semiLatus 1 6 2 2)
    (semiLatus 1 6 2 2 / denom (Real.sqrt (eccArg 1 6 2 2 (-(1 / 5)))) 0)
    (by norm_num) (by norm_num) (by norm_num) (by norm_num)
    (by rw [eccArg, mu]; norm_num) rfl rfl
    (by rw [radius, if_pos habs])

end Kepler
